import Mathlib

/-!
Verification of the Merkle commitment-proof core
(`ibc-core/ics23-commitment/types/src/merkle.rs`).

The external ics23 proof-spec engine (`calculate_existence_root`,
`ics23::verify_membership`, `ics23::verify_non_membership`) and the digest
provider behind it are out-of-scope collaborators that the core calls as a
black box; they are embedded as an abstract capability record `Ics23Engine`
over an opaque existence-proof type `E` and an opaque per-level proof-spec
type `S`.  Byte strings (`Vec<u8>`) are `List UInt8`.
-/

namespace IbcMerkle

/-- Byte strings (`Vec<u8>` in the source). -/
abbrev Bytes := List UInt8

/-- `str::as_bytes` / `String::as_bytes`: the UTF-8 bytes of a string,
used when a key-path segment is handed to the ics23 engine. -/
def strBytes (s : String) : Bytes := s.toUTF8.toList

/-- `ibc_proto::ibc::core::commitment::v1::MerkleRoot`: wire-level wrapper
around the root hash bytes. -/
structure MerkleRoot where
  hash : Bytes
deriving DecidableEq

/-- `ibc_proto::ibc::core::commitment::v1::MerklePath`: ordered key segments,
root-to-leaf. -/
structure MerklePath where
  key_path : List String
deriving DecidableEq

/-- `ics23::NonExistenceProof`: optional neighboring existence fragments
bounding an absent key.  The existence fragments themselves are opaque to
this core (type parameter `E`). -/
structure NonExistenceProof (E : Type) where
  key : Bytes
  left : Option E
  right : Option E
deriving DecidableEq

/-- `ibc_proto::ics23::commitment_proof::Proof`: the tagged variant over
existence and non-existence fragments.  The `Batch` and `Compressed`
variants exist on the wire but are never inspected by this core, so their
payloads are elided. -/
inductive Proof (E : Type) where
  | Exist : E → Proof E
  | Nonexist : NonExistenceProof E → Proof E
  | Batch : Proof E
  | Compressed : Proof E
deriving DecidableEq

/-- `ics23::CommitmentProof`: protobuf message with an optional `proof`
variant field. -/
structure CommitmentProof (E : Type) where
  proof : Option (Proof E)
deriving DecidableEq

/-- Domain `MerkleProof` (merkle.rs lines 35-38): ordered list of per-level
commitment proofs, leaf-to-root. -/
structure MerkleProof (E : Type) where
  proofs : List (CommitmentProof E)
deriving DecidableEq

/-- Wire `RawMerkleProof` (`ibc_proto::...::MerkleProof`): carries the same
ordered list of per-level proofs; no other wire field is interpreted here. -/
structure RawMerkleProof (E : Type) where
  proofs : List (CommitmentProof E)
deriving DecidableEq

/-- Modelled from the spec: `CommitmentError` lives in `error.rs`, which is
not under `src/`; its variants are exactly the ones merkle.rs constructs and
spec section 7 lists. -/
inductive CommitmentError where
  | EmptyMerkleProof : CommitmentError
  | EmptyMerkleRoot : CommitmentError
  | NumberOfSpecsMismatch : CommitmentError
  | NumberOfKeysMismatch : CommitmentError
  | EmptyVerifiedValue : CommitmentError
  | InvalidMerkleProof : CommitmentError
  | VerificationFailure : CommitmentError
deriving DecidableEq

/-- The external ics23 proof-spec engine together with the
`HostFunctionsManager` digest provider, as a capability record:
`calculate_existence_root` recomputes the subroot an existence fragment
implies (`Err` collapsed to `none`, since the core only maps any engine
error to `InvalidMerkleProof`); `verify_membership proof spec subroot key
value` and `verify_non_membership proof spec subroot key` are the boolean
consistency checks.  `E` is the opaque `ExistenceProof` type and `S` the
opaque `ics23::ProofSpec` type. -/
structure Ics23Engine (E S : Type) where
  calculate_existence_root : E → Option Bytes
  verify_membership : CommitmentProof E → S → Bytes → Bytes → Bytes → Bool
  verify_non_membership : CommitmentProof E → S → Bytes → Bytes → Bool

/-- `TryFrom<RawMerkleProof> for MerkleProof` (merkle.rs lines 42-50). -/
def MerkleProof.try_from {E : Type} (proof : RawMerkleProof E) :
    Except CommitmentError (MerkleProof E) :=
  .ok { proofs := proof.proofs }

/-- `From<MerkleProof> for RawMerkleProof` (merkle.rs lines 52-58). -/
def RawMerkleProof.from {E : Type} (proof : MerkleProof E) : RawMerkleProof E :=
  { proofs := proof.proofs }

/-- `apply_prefix` (merkle.rs lines 21-25) builds a `MerklePath` whose head is
`format!` of the prefix in `Debug` form followed by the caller's segments.
Modelled from the spec: `CommitmentPrefix` and its `Debug` rendering live in
`commitment.rs`, which is not under `src/`; the prefix is an opaque value
`pfx : P` and `fmt_debug` its textual rendering. -/
def apply_prefix {P : Type} (fmt_debug : P → String) (pfx : P)
    (path : List String) : MerklePath :=
  { key_path := [fmt_debug pfx] ++ path }

/-- `calculate_non_existence_root` (merkle.rs lines 242-252): subroot of the
left neighbor fragment if present, else of the right, else
`InvalidMerkleProof`; any engine failure maps to `InvalidMerkleProof`. -/
def calculate_non_existence_root {E S : Type} (eng : Ics23Engine E S)
    (proof : NonExistenceProof E) : Except CommitmentError Bytes :=
  match proof.left with
  | some left =>
    match eng.calculate_existence_root left with
    | some r => .ok r
    | none => .error .InvalidMerkleProof
  | none =>
    match proof.right with
    | some right =>
      match eng.calculate_existence_root right with
      | some r => .ok r
      | none => .error .InvalidMerkleProof
    | none => .error .InvalidMerkleProof

/-- One iteration of the `verify_membership` loop (merkle.rs lines 159-175).
The state is the pair of the two mutable locals `(subroot, value)`; a level
is a zipped triple `((proof, spec), key)`. -/
def stepLevel {E S : Type} (eng : Ics23Engine E S) (st : Bytes × Bytes)
    (level : (CommitmentProof E × S) × String) :
    Except CommitmentError (Bytes × Bytes) :=
  match level.1.1.proof with
  | some (.Exist existence_proof) =>
    match eng.calculate_existence_root existence_proof with
    | none => .error .InvalidMerkleProof
    | some subroot =>
      if eng.verify_membership level.1.1 level.1.2 subroot (strBytes level.2) st.2
      then .ok (subroot, subroot)
      else .error .VerificationFailure
  | _ => .error .InvalidMerkleProof

/-- The `verify_membership` loop (merkle.rs lines 148-176): thread the
`(subroot, value)` state through the levels, failing fast. -/
def runLevels {E S : Type} (eng : Ics23Engine E S) :
    Bytes × Bytes → List ((CommitmentProof E × S) × String) →
    Except CommitmentError (Bytes × Bytes)
  | st, [] => .ok st
  | st, level :: rest =>
    match stepLevel eng st level with
    | .error e => .error e
    | .ok st' => runLevels eng st' rest

/-- The iteration sequence of the `verify_membership` loop (merkle.rs lines
148-157): proofs zipped with the specs, zipped with the reversed key path
(keys are root-to-leaf, proofs leaf-to-root), then `skip(start_index)`. -/
def levelsFrom {E S : Type} (proofs : List (CommitmentProof E))
    (ics23_specs : List S) (key_path : List String) (start_index : Nat) :
    List ((CommitmentProof E × S) × String) :=
  ((proofs.zip ics23_specs).zip key_path.reverse).drop start_index

/-- `MerkleProof::verify_membership` (merkle.rs lines 118-183).  `specs` is
the `Vec<ics23::ProofSpec>` obtained from the caller's `ProofSpecs`
(`specs.rs` is not under `src/`; per the spec the specs are opaque
per-level configuration that this core only counts and passes through, so
the list of opaque `S` values stands for it directly). -/
def MerkleProof.verify_membership {E S : Type} (self : MerkleProof E)
    (eng : Ics23Engine E S) (specs : List S) (root : MerkleRoot)
    (keys : MerklePath) (value : Bytes) (start_index : Nat) :
    Except CommitmentError Unit :=
  if self.proofs.isEmpty then .error .EmptyMerkleProof
  else if root.hash.isEmpty then .error .EmptyMerkleRoot
  else if specs.length ≠ self.proofs.length then .error .NumberOfSpecsMismatch
  else if keys.key_path.length ≠ self.proofs.length then
    .error .NumberOfKeysMismatch
  else if value.isEmpty then .error .EmptyVerifiedValue
  else
    match runLevels eng (value, value)
        (levelsFrom self.proofs specs keys.key_path start_index) with
    | .error e => .error e
    | .ok st =>
      if root.hash ≠ st.1 then .error .VerificationFailure else .ok ()

/-- `MerkleProof::verify_non_membership` (merkle.rs lines 185-238). -/
def MerkleProof.verify_non_membership {E S : Type} (self : MerkleProof E)
    (eng : Ics23Engine E S) (specs : List S) (root : MerkleRoot)
    (keys : MerklePath) : Except CommitmentError Unit :=
  if self.proofs.isEmpty then .error .EmptyMerkleProof
  else if root.hash.isEmpty then .error .EmptyMerkleRoot
  else if specs.length ≠ self.proofs.length then .error .NumberOfSpecsMismatch
  else if keys.key_path.length ≠ self.proofs.length then
    .error .NumberOfKeysMismatch
  else
    match self.proofs.head? with
    | none => .error .InvalidMerkleProof
    | some proof =>
      match specs.head? with
      | none => .error .InvalidMerkleProof
      | some spec =>
        match keys.key_path[self.proofs.length - 1]? with
        | none => .error .InvalidMerkleProof
        | some key =>
          match proof.proof with
          | some (.Nonexist non_existence_proof) =>
            match calculate_non_existence_root eng non_existence_proof with
            | .error e => .error e
            | .ok subroot =>
              if eng.verify_non_membership proof spec subroot (strBytes key)
              then self.verify_membership eng specs root keys subroot 1
              else .error .VerificationFailure
          | _ => .error .InvalidMerkleProof

/-- C8: wire round-trip.  Domain-to-wire-to-domain is the identity on the
proofs list; the domain conversion always succeeds and preserves the proofs
list; and wire-to-domain-to-wire is also the identity. -/
theorem merkle_proof_roundtrip (E : Type) (p : MerkleProof E)
    (r : RawMerkleProof E) :
    MerkleProof.try_from (RawMerkleProof.from p) = .ok p
      ∧ MerkleProof.try_from r = .ok { proofs := r.proofs }
      ∧ RawMerkleProof.from ({ proofs := r.proofs } : MerkleProof E) = r :=
  ⟨rfl, rfl, rfl⟩

/-- C9: `apply_prefix` returns a path whose head is the textual rendering of
the prefix and whose tail is exactly the caller's segments in order, so the
length is one plus the input length. -/
theorem apply_prefix_prepends (P : Type) (fmt_debug : P → String) (pfx : P)
    (path : List String) :
    ( apply_prefix fmt_debug pfx path).key_path = fmt_debug pfx :: path
      ∧ ( apply_prefix fmt_debug pfx path).key_path.length = path.length + 1
      ∧ ( apply_prefix fmt_debug pfx path).key_path.tail = path :=
  ⟨rfl, by simp [ apply_prefix], rfl⟩

/-- A trivial engine over unit existence proofs and unit specs, used to
evaluate the model on concrete inputs: every fragment recomputes to `[1]`
and both consistency checks accept. -/
def unitEngine : Ics23Engine Unit Unit where
  calculate_existence_root := fun _ => some [1]
  verify_membership := fun _ _ _ _ _ => true
  verify_non_membership := fun _ _ _ _ => true

/-- A commitment proof with an absent inner variant. -/
def cpNone : CommitmentProof Unit := { proof := none }

/-- A commitment proof carrying an existence fragment. -/
def cpExist : CommitmentProof Unit := { proof := some (.Exist ()) }

/-- A commitment proof carrying a non-existence fragment with only a left
neighbor. -/
def cpNonexist : CommitmentProof Unit :=
  { proof := some (.Nonexist { key := [], left := some (), right := none }) }

/-- C1: element `i - start_index` of the iterated level sequence pairs the
proof at index `i` with the spec at index `i` and with the key at index
`n - 1 - i` of the key path, for every `start_index ≤ i < n` when all three
lists have length `n`. -/
theorem verify_membership_pairing (E S : Type)
    (proofs : List (CommitmentProof E)) (ics23_specs : List S)
    (key_path : List String) (n start_index i : Nat)
    (hp : proofs.length = n) (hs : ics23_specs.length = n)
    (hk : key_path.length = n) (hstart : start_index ≤ i) (hi : i < n) :
    (levelsFrom proofs ics23_specs key_path start_index)[i - start_index]?
      = some ((proofs[i], ics23_specs[i]), key_path[n - 1 - i]) := by
  subst hp
  unfold levelsFrom
  rw [List.getElem?_drop]
  have h1 : start_index + (i - start_index) = i := by omega
  rw [h1, List.getElem?_zip_eq_some]
  refine ⟨?_, ?_⟩
  · rw [List.getElem?_zip_eq_some]
    exact ⟨List.getElem?_eq_getElem (by omega),
      List.getElem?_eq_getElem (by omega)⟩
  · rw [List.getElem?_reverse (by omega)]
    conv_lhs =>
      rw [show key_path.length - 1 - i = proofs.length - 1 - i by omega]
    exact List.getElem?_eq_getElem (by omega)

/-- Witness for C1 at a concrete two-level input with `start_index = 0`,
`i = 1`. -/
theorem verify_membership_pairing_witness :
    (levelsFrom [cpNone, cpExist] [(), ()] ["r", "l"] 0)[1 - 0]?
      = some (([cpNone, cpExist][1], [(), ()][1]), ["r", "l"][2 - 1 - 1]) :=
  verify_membership_pairing Unit Unit [cpNone, cpExist] [(), ()] ["r", "l"]
    2 0 1 rfl rfl rfl (by decide) (by decide)

/-- C3: with all five preconditions satisfied and `start_index` at least the
proof-list length, the loop is skipped entirely and the call succeeds
exactly when the untouched value equals the root bytes, failing with
`VerificationFailure` otherwise. -/
theorem verify_membership_degenerate (E S : Type) (eng : Ics23Engine E S)
    (self : MerkleProof E) (specs : List S) (root : MerkleRoot)
    (keys : MerklePath) (value : Bytes) (start_index : Nat)
    (h1 : self.proofs.isEmpty = false) (h2 : root.hash.isEmpty = false)
    (h3 : specs.length = self.proofs.length)
    (h4 : keys.key_path.length = self.proofs.length)
    (h5 : value.isEmpty = false)
    (hstart : self.proofs.length ≤ start_index) :
    self.verify_membership eng specs root keys value start_index
      = if value = root.hash then .ok () else .error .VerificationFailure := by
  have hnil : levelsFrom self.proofs specs keys.key_path start_index = [] := by
    unfold levelsFrom
    apply List.drop_eq_nil_of_le
    simp only [List.length_zip, List.length_reverse]
    omega
  unfold MerkleProof.verify_membership
  rw [hnil]
  simp only [h1, h2, h3, h4, h5, runLevels, Bool.false_eq_true, if_false,
    ne_eq, not_true_eq_false, if_neg, not_false_eq_true]
  by_cases h : value = root.hash
  · subst h
    simp
  · have h' : root.hash ≠ value := fun e => h e.symm
    simp [h, h']

/-- Witness for C3 at a concrete one-proof input with `start_index = 5`. -/
theorem verify_membership_degenerate_witness :
    (MerkleProof.mk [cpNone]).verify_membership unitEngine [()] ⟨[0]⟩
        ⟨["k"]⟩ [0] 5
      = if ([0] : Bytes) = (MerkleRoot.mk [0]).hash then .ok ()
        else .error .VerificationFailure :=
  verify_membership_degenerate Unit Unit unitEngine ⟨[cpNone]⟩ [()] ⟨[0]⟩
    ⟨["k"]⟩ [0] 5 rfl rfl rfl rfl rfl (by decide)

/-- C4: with the preconditions satisfied, whenever the whole level loop
succeeds with final state `st` (whose first component is the accumulated
`subroot`, i.e. the original value if no level was processed), the call
returns `Ok` exactly when that accumulated value equals the root bytes and
`VerificationFailure` otherwise. -/
theorem verify_membership_final_check (E S : Type) (eng : Ics23Engine E S)
    (self : MerkleProof E) (specs : List S) (root : MerkleRoot)
    (keys : MerklePath) (value : Bytes) (start_index : Nat)
    (st : Bytes × Bytes)
    (h1 : self.proofs.isEmpty = false) (h2 : root.hash.isEmpty = false)
    (h3 : specs.length = self.proofs.length)
    (h4 : keys.key_path.length = self.proofs.length)
    (h5 : value.isEmpty = false)
    (hrun : runLevels eng (value, value)
        (levelsFrom self.proofs specs keys.key_path start_index) = .ok st) :
    self.verify_membership eng specs root keys value start_index
      = if st.1 = root.hash then .ok () else .error .VerificationFailure := by
  unfold MerkleProof.verify_membership
  rw [hrun]
  simp only [h1, h2, h3, h4, h5, Bool.false_eq_true, if_false, ne_eq,
    not_true_eq_false, not_false_eq_true]
  by_cases h : st.1 = root.hash
  · have h' : ¬ root.hash ≠ st.1 := fun e => e h.symm
    simp [h, h']
  · have h' : root.hash ≠ st.1 := fun e => h e.symm
    simp [h, h']

/-- Witness for C4 at a concrete one-level input where the level succeeds
with subroot `[1]`. -/
theorem verify_membership_final_check_witness :
    (MerkleProof.mk [cpExist]).verify_membership unitEngine [()] ⟨[1]⟩
        ⟨["k"]⟩ [7] 0
      = if (([1], [1]) : Bytes × Bytes).1 = (MerkleRoot.mk [1]).hash
        then .ok () else .error .VerificationFailure :=
  verify_membership_final_check Unit Unit unitEngine ⟨[cpExist]⟩ [()] ⟨[1]⟩
    ⟨["k"]⟩ [7] 0 ([1], [1]) rfl rfl rfl rfl rfl rfl

/-- A concrete key-path segment for witnesses. -/
def segK : String := "k"

/-- C2: once `verify_non_membership` has found a `Nonexist` proof at index 0
whose reference subroot computation returns `subroot` and whose
non-membership check against the leaf key is positive, its result is the
result of `verify_membership` on the same spec list, root, and key path
with `value = subroot` and `start_index = 1`. -/
theorem verify_non_membership_recursion (E S : Type) (eng : Ics23Engine E S)
    (self : MerkleProof E) (specs : List S) (root : MerkleRoot)
    (keys : MerklePath) (proof : CommitmentProof E) (spec : S) (key : String)
    (nep : NonExistenceProof E) (subroot : Bytes)
    (h1 : self.proofs.isEmpty = false) (h2 : root.hash.isEmpty = false)
    (h3 : specs.length = self.proofs.length)
    (h4 : keys.key_path.length = self.proofs.length)
    (hhead : self.proofs.head? = some proof)
    (hs : specs.head? = some spec)
    (hk : keys.key_path[self.proofs.length - 1]? = some key)
    (hne : proof.proof = some (Proof.Nonexist nep))
    (hcalc : calculate_non_existence_root eng nep = .ok subroot)
    (hcheck : eng.verify_non_membership proof spec subroot (strBytes key)
      = true) :
    self.verify_non_membership eng specs root keys
      = self.verify_membership eng specs root keys subroot 1 := by
  unfold MerkleProof.verify_non_membership
  simp only [h1, h2, h3, h4, Bool.false_eq_true, if_false, ne_eq,
    not_true_eq_false, not_false_eq_true, hhead, hs, hk, hne, hcalc, hcheck,
    if_true]

/-- Witness for C2 at a concrete one-proof input whose level-0 proof is a
non-existence fragment with a left neighbor. -/
theorem verify_non_membership_recursion_witness :
    (MerkleProof.mk [cpNonexist]).verify_non_membership unitEngine [()]
        ⟨[1]⟩ ⟨[segK]⟩
      = (MerkleProof.mk [cpNonexist]).verify_membership unitEngine [()]
        ⟨[1]⟩ ⟨[segK]⟩ [1] 1 :=
  verify_non_membership_recursion Unit Unit unitEngine ⟨[cpNonexist]⟩ [()]
    ⟨[1]⟩ ⟨[segK]⟩ cpNonexist () segK ⟨[], some (), none⟩ [1]
    rfl rfl rfl rfl rfl rfl rfl rfl rfl rfl

/-- C5: the five `verify_membership` preconditions are checked in order
(empty proofs, empty root, spec count, key count, empty value) with the
first failure winning, and `verify_non_membership` checks the first four in
the same order. -/
theorem precondition_order (E S : Type) (eng : Ics23Engine E S)
    (self : MerkleProof E) (specs : List S) (root : MerkleRoot)
    (keys : MerklePath) (value : Bytes) (start_index : Nat) :
    (self.proofs.isEmpty = true →
        self.verify_membership eng specs root keys value start_index
            = .error .EmptyMerkleProof
          ∧ self.verify_non_membership eng specs root keys
            = .error .EmptyMerkleProof)
  ∧ (self.proofs.isEmpty = false → root.hash.isEmpty = true →
        self.verify_membership eng specs root keys value start_index
            = .error .EmptyMerkleRoot
          ∧ self.verify_non_membership eng specs root keys
            = .error .EmptyMerkleRoot)
  ∧ (self.proofs.isEmpty = false → root.hash.isEmpty = false →
      specs.length ≠ self.proofs.length →
        self.verify_membership eng specs root keys value start_index
            = .error .NumberOfSpecsMismatch
          ∧ self.verify_non_membership eng specs root keys
            = .error .NumberOfSpecsMismatch)
  ∧ (self.proofs.isEmpty = false → root.hash.isEmpty = false →
      specs.length = self.proofs.length →
      keys.key_path.length ≠ self.proofs.length →
        self.verify_membership eng specs root keys value start_index
            = .error .NumberOfKeysMismatch
          ∧ self.verify_non_membership eng specs root keys
            = .error .NumberOfKeysMismatch)
  ∧ (self.proofs.isEmpty = false → root.hash.isEmpty = false →
      specs.length = self.proofs.length →
      keys.key_path.length = self.proofs.length → value.isEmpty = true →
        self.verify_membership eng specs root keys value start_index
          = .error .EmptyVerifiedValue) := by
  refine ⟨fun hA => ⟨?_, ?_⟩, fun hA hB => ⟨?_, ?_⟩,
    fun hA hB hC => ⟨?_, ?_⟩, fun hA hB hC hD => ⟨?_, ?_⟩,
    fun hA hB hC hD hE => ?_⟩ <;>
  simp_all [MerkleProof.verify_membership, MerkleProof.verify_non_membership]

/-- Witness for C5: the empty-proof-list failure of `verify_membership` and
a spec-count mismatch of `verify_non_membership`, both at concrete inputs. -/
theorem precondition_order_witness :
    (MerkleProof.mk ([] : List (CommitmentProof Unit))).verify_membership
        unitEngine [] ⟨[0]⟩ ⟨[]⟩ [0] 0 = .error .EmptyMerkleProof
      ∧ (MerkleProof.mk [cpNone]).verify_non_membership unitEngine []
        ⟨[0]⟩ ⟨[segK]⟩ = .error .NumberOfSpecsMismatch :=
  ⟨((precondition_order Unit Unit unitEngine ⟨[]⟩ [] ⟨[0]⟩ ⟨[]⟩ [0] 0).1
      rfl).1,
   ((precondition_order Unit Unit unitEngine ⟨[cpNone]⟩ [] ⟨[0]⟩ ⟨[segK]⟩
      [0] 0).2.2.1 rfl rfl (by decide)).2⟩

/-- C6: the reference subroot of a non-existence proof comes from the left
neighbor whenever one is present (the right neighbor is not consulted),
else from the right neighbor, and with neither neighbor the computation
fails with `InvalidMerkleProof`. -/
theorem non_existence_root_neighbor_choice (E S : Type)
    (eng : Ics23Engine E S) (nep : NonExistenceProof E) :
    (∀ l, nep.left = some l →
        calculate_non_existence_root eng nep
          = match eng.calculate_existence_root l with
            | some r => .ok r
            | none => .error .InvalidMerkleProof)
  ∧ (nep.left = none → ∀ r, nep.right = some r →
        calculate_non_existence_root eng nep
          = match eng.calculate_existence_root r with
            | some x => .ok x
            | none => .error .InvalidMerkleProof)
  ∧ (nep.left = none → nep.right = none →
        calculate_non_existence_root eng nep
          = .error .InvalidMerkleProof) := by
  refine ⟨fun l hl => ?_, fun hl r hr => ?_, fun hl hr => ?_⟩
  · unfold calculate_non_existence_root
    rw [hl]
  · unfold calculate_non_existence_root
    rw [hl, hr]
  · unfold calculate_non_existence_root
    rw [hl, hr]

/-- Witness for C6 at a fragment with both neighbors present: the result is
computed from the left neighbor. -/
theorem non_existence_root_neighbor_choice_witness :
    calculate_non_existence_root unitEngine
        ({ key := [], left := some (), right := some () } :
          NonExistenceProof Unit)
      = match unitEngine.calculate_existence_root () with
        | some r => .ok r
        | none => .error .InvalidMerkleProof :=
  (non_existence_root_neighbor_choice Unit Unit unitEngine
    { key := [], left := some (), right := some () }).1 () rfl

/-- Helper: the level loop distributes over list append, failing fast. -/
theorem runLevels_append (E S : Type) (eng : Ics23Engine E S)
    (xs ys : List ((CommitmentProof E × S) × String)) (st : Bytes × Bytes) :
    runLevels eng st (xs ++ ys)
      = match runLevels eng st xs with
        | .error e => .error e
        | .ok st2 => runLevels eng st2 ys := by
  induction xs generalizing st with
  | nil => rfl
  | cons x xs ih =>
    simp only [List.cons_append, runLevels]
    cases stepLevel eng st x with
    | error e => rfl
    | ok st2 => exact ih st2

/-- Helper: a level whose commitment proof does not carry the `Exist`
variant makes the loop body fail with `InvalidMerkleProof`. -/
theorem stepLevel_not_exist (E S : Type) (eng : Ics23Engine E S)
    (st : Bytes × Bytes) (level : (CommitmentProof E × S) × String)
    (h : ∀ ep, level.1.1.proof ≠ some (Proof.Exist ep)) :
    stepLevel eng st level = .error .InvalidMerkleProof := by
  unfold stepLevel
  cases hp : level.1.1.proof with
  | none => rfl
  | some p =>
    cases p with
    | Exist e => exact absurd hp (h e)
    | Nonexist n => rfl
    | Batch => rfl
    | Compressed => rfl

/-- C7: with the preconditions satisfied, whenever the level loop reaches a
level whose proof is not the `Exist` variant (absent inner proof included),
`verify_membership` returns `InvalidMerkleProof`; and whenever the proof at
index 0 is not the `Nonexist` variant, `verify_non_membership` returns
`InvalidMerkleProof`. -/
theorem wrong_variant_rejected (E S : Type) (eng : Ics23Engine E S)
    (self : MerkleProof E) (specs : List S) (root : MerkleRoot)
    (keys : MerklePath) (value : Bytes) (start_index : Nat)
    (h1 : self.proofs.isEmpty = false) (h2 : root.hash.isEmpty = false)
    (h3 : specs.length = self.proofs.length)
    (h4 : keys.key_path.length = self.proofs.length)
    (h5 : value.isEmpty = false) :
    (∀ pre bad rest st,
        levelsFrom self.proofs specs keys.key_path start_index
            = pre ++ bad :: rest →
        runLevels eng (value, value) pre = .ok st →
        (∀ ep, bad.1.1.proof ≠ some (Proof.Exist ep)) →
        self.verify_membership eng specs root keys value start_index
          = .error .InvalidMerkleProof)
  ∧ (∀ proof, self.proofs.head? = some proof →
        (∀ nep, proof.proof ≠ some (Proof.Nonexist nep)) →
        self.verify_non_membership eng specs root keys
          = .error .InvalidMerkleProof) := by
  constructor
  · intro pre bad rest st hsplit hpre hbad
    have hfull : runLevels eng (value, value)
        (levelsFrom self.proofs specs keys.key_path start_index)
          = .error .InvalidMerkleProof := by
      rw [hsplit, runLevels_append E S eng pre (bad :: rest) (value, value),
        hpre]
      simp only [runLevels, stepLevel_not_exist E S eng st bad hbad]
    unfold MerkleProof.verify_membership
    simp only [h1, h2, h3, h4, h5, Bool.false_eq_true, if_false, ne_eq,
      not_true_eq_false, not_false_eq_true, hfull]
  · intro proof hhead hnon
    have hlen : 0 < self.proofs.length := by
      cases hps : self.proofs with
      | nil => rw [hps] at h1; simp at h1
      | cons a l => simp [hps]
    obtain ⟨spec, hs⟩ : ∃ s, specs.head? = some s := by
      cases specs with
      | nil => simp at h3; omega
      | cons s ss => exact ⟨s, rfl⟩
    have hk : keys.key_path[self.proofs.length - 1]?
        = some (keys.key_path[self.proofs.length - 1]) :=
      List.getElem?_eq_getElem (by omega)
    unfold MerkleProof.verify_non_membership
    simp only [h1, h2, h3, h4, Bool.false_eq_true, if_false, ne_eq,
      not_true_eq_false, not_false_eq_true, hhead, hs, hk]

/-- Witness for C7: a single absent inner proof rejected by
`verify_membership`, and a single existence proof rejected by
`verify_non_membership`, both at concrete inputs. -/
theorem wrong_variant_rejected_witness :
    (MerkleProof.mk [cpNone]).verify_membership unitEngine [()] ⟨[1]⟩
        ⟨[segK]⟩ [7] 0 = .error .InvalidMerkleProof
      ∧ (MerkleProof.mk [cpExist]).verify_non_membership unitEngine [()]
        ⟨[1]⟩ ⟨[segK]⟩ = .error .InvalidMerkleProof :=
  ⟨(wrong_variant_rejected Unit Unit unitEngine ⟨[cpNone]⟩ [()] ⟨[1]⟩
      ⟨[segK]⟩ [7] 0 rfl rfl rfl rfl rfl).1 [] ((cpNone, ()), segK) []
      ([7], [7]) rfl rfl (by intro ep h; simp [cpNone] at h),
   (wrong_variant_rejected Unit Unit unitEngine ⟨[cpExist]⟩ [()] ⟨[1]⟩
      ⟨[segK]⟩ [7] 0 rfl rfl rfl rfl rfl).2 cpExist rfl
      (by intro nep h; simp [cpExist] at h)⟩

/-- C10: once the `verify_non_membership` preconditions have passed
(non-empty proof list, matching spec and key counts), the three `Option`
lookups — first proof, first spec, key at index `num - 1` — all succeed,
so their `InvalidMerkleProof` fallback branches are unreachable. -/
theorem non_membership_lookups_succeed (E S : Type) (self : MerkleProof E)
    (specs : List S) (keys : MerklePath)
    (h1 : self.proofs.isEmpty = false)
    (h3 : specs.length = self.proofs.length)
    (h4 : keys.key_path.length = self.proofs.length) :
    (∃ p, self.proofs.head? = some p)
      ∧ (∃ s, specs.head? = some s)
      ∧ (∃ k, keys.key_path[self.proofs.length - 1]? = some k) := by
  have hlen : 0 < self.proofs.length := by
    cases hps : self.proofs with
    | nil => rw [hps] at h1; simp at h1
    | cons a l => simp [hps]
  refine ⟨?_, ?_, ?_⟩
  · cases hps : self.proofs with
    | nil => rw [hps] at h1; simp at h1
    | cons a l => exact ⟨a, rfl⟩
  · cases specs with
    | nil => simp at h3; omega
    | cons s ss => exact ⟨s, rfl⟩
  · exact ⟨keys.key_path[self.proofs.length - 1],
      List.getElem?_eq_getElem (by omega)⟩

/-- Witness for C10 at a concrete one-proof input. -/
theorem non_membership_lookups_succeed_witness :
    (∃ p, (MerkleProof.mk [cpNonexist]).proofs.head? = some p)
      ∧ (∃ s, ([()] : List Unit).head? = some s)
      ∧ (∃ k, (MerklePath.mk [segK]).key_path[
          (MerkleProof.mk [cpNonexist]).proofs.length - 1]? = some k) :=
  non_membership_lookups_succeed Unit Unit ⟨[cpNonexist]⟩ [()] ⟨[segK]⟩
    rfl rfl rfl

end IbcMerkle
